import Mathlib

/-!
Verification of the `aimaker` repository (a small orchestration script that
asks a language model for a Python function plus a test, writes the pair to a
scratch workspace and runs the tests).

Strings are modelled as `List Char`.  The external collaborators (the OpenAI
chat-completion call and the CPython `ast.parse` front end) are taken as
oracle parameters; everything else is translated directly from
`src/aimaker/main.py` and `src/aimaker/utils.py`.
-/

namespace Aimaker

/-! ## Python string primitives (`str.find`, slicing) used by `utils.py` -/

/-- Helper for `str.find`: scan indices `i, i+1, ...` (at most `fuel` of them)
for the first position where `sub` is a prefix of `s.drop i`. -/
def pyFindAux (s sub : List Char) : Nat → Nat → Option Nat
  | _, 0 => none
  | i, fuel + 1 =>
    if sub.isPrefixOf (s.drop i) then some i else pyFindAux s sub (i + 1) fuel

/-- Python `s.find(sub, start)` for a non-negative `start`: the least index
`i ≥ start` with `i ≤ len s` where `sub` occurs, or `-1` if none exists. -/
def pyFindNat (s sub : List Char) (start : Nat) : Int :=
  match pyFindAux s sub start (s.length + 1 - start) with
  | some i => (i : Int)
  | none => -1

/-- Python `s.find(sub, start)` with an arbitrary integer `start` (a negative
start counts from the end of the string, clamped at 0). -/
def pyFind (s sub : List Char) (start : Int) : Int :=
  pyFindNat s sub (if start < 0 then ((s.length : Int) + start).toNat else start.toNat)

/-- `utils.extract_substring` (src/aimaker/utils.py lines 27-33):

```
start = s.find(start_marker) + len(start_marker)
end = s.find(end_marker, start)
if start >= len(start_marker) and end != -1:
    return s[start:end]
else:
    return s
``` -/
def extract_substring (s start_marker end_marker : List Char) : List Char :=
  let start : Int := pyFindNat s start_marker 0 + start_marker.length
  let stop : Int := pyFind s end_marker start
  if start_marker.length ≤ start ∧ stop ≠ -1 then
    (s.take stop.toNat).drop start.toNat
  else
    s

/-! ### Occurrence predicates characterising `str.find` -/

/-- `sub` occurs in `s` starting at index `i` (for the empty `sub` this asks
only that `i` is a valid position, matching Python's `find`). -/
def occursAt (s sub : List Char) (i : Nat) : Prop :=
  i ≤ s.length ∧ sub <+: s.drop i

instance (s sub : List Char) (i : Nat) : Decidable (occursAt s sub i) := by
  unfold occursAt; infer_instance

/-- `i` is the first index `≥ lo` at which `sub` occurs in `s`. -/
def firstOccFrom (s sub : List Char) (lo i : Nat) : Prop :=
  lo ≤ i ∧ occursAt s sub i ∧ ∀ j, lo ≤ j → j < i → ¬ occursAt s sub j

instance (s sub : List Char) (lo i : Nat) : Decidable (firstOccFrom s sub lo i) := by
  unfold firstOccFrom; infer_instance

/-- Executable test for "`sub` occurs somewhere in `s`". -/
def containsSub (s sub : List Char) : Bool :=
  (List.range (s.length + 1)).any fun i => sub.isPrefixOf (s.drop i)

lemma pyFindAux_eq_none_iff (s sub : List Char) :
    ∀ (fuel i : Nat), pyFindAux s sub i fuel = none ↔
      ∀ j, i ≤ j → j < i + fuel → ¬ sub <+: s.drop j := by
  intro fuel
  induction fuel with
  | zero => intro i; simp [pyFindAux]; omega
  | succ fuel ih =>
    intro i
    by_cases h : sub.isPrefixOf (s.drop i)
    · simp only [pyFindAux, h, if_pos]
      constructor
      · intro hcontra; cases hcontra
      · intro hall
        exact absurd (List.isPrefixOf_iff_prefix.mp h)
          (hall i (le_refl i) (by omega))
    · simp only [pyFindAux, h, if_neg, Bool.false_eq_true, not_false_iff, ite_false]
      rw [ih (i + 1)]
      constructor
      · intro hall j hij hj
        rcases Nat.eq_or_lt_of_le hij with rfl | hlt
        · exact fun hp => h (List.isPrefixOf_iff_prefix.mpr hp)
        · exact hall j hlt (by omega)
      · intro hall j hij hj
        exact hall j (by omega) (by omega)

lemma pyFindAux_eq_some_iff (s sub : List Char) :
    ∀ (fuel i r : Nat), pyFindAux s sub i fuel = some r ↔
      (i ≤ r ∧ r < i + fuel ∧ sub <+: s.drop r ∧
        ∀ j, i ≤ j → j < r → ¬ sub <+: s.drop j) := by
  intro fuel
  induction fuel with
  | zero => intro i r; simp [pyFindAux]; omega
  | succ fuel ih =>
    intro i r
    by_cases h : sub.isPrefixOf (s.drop i)
    · simp only [pyFindAux, h, if_pos]
      constructor
      · rintro h'
        injection h' with h'
        subst h'
        exact ⟨le_refl i, by omega, List.isPrefixOf_iff_prefix.mp h,
          fun j h1 h2 => absurd h1 (by omega)⟩
      · rintro ⟨h1, _, _, h4⟩
        rcases Nat.eq_or_lt_of_le h1 with rfl | hlt
        · rfl
        · exact absurd (List.isPrefixOf_iff_prefix.mp h) (h4 i (le_refl i) hlt)
    · simp only [pyFindAux, h, Bool.false_eq_true, not_false_iff, ite_false]
      rw [ih (i + 1)]
      constructor
      · rintro ⟨h1, h2, h3, h4⟩
        exact ⟨by omega, by omega, h3, fun j hij hj => by
          rcases Nat.eq_or_lt_of_le hij with rfl | hlt
          · exact fun hp => h (List.isPrefixOf_iff_prefix.mpr hp)
          · exact h4 j hlt hj⟩
      · rintro ⟨h1, h2, h3, h4⟩
        have hir : i ≠ r := by
          rintro rfl
          exact h (List.isPrefixOf_iff_prefix.mpr h3)
        exact ⟨by omega, by omega, h3, fun j hij hj => h4 j (by omega) hj⟩

lemma pyFindNat_eq_of_firstOcc {s sub : List Char} {lo i : Nat}
    (h : firstOccFrom s sub lo i) : pyFindNat s sub lo = i := by
  obtain ⟨h1, ⟨hib, hip⟩, h3⟩ := h
  have : pyFindAux s sub lo (s.length + 1 - lo) = some i := by
    rw [pyFindAux_eq_some_iff]
    refine ⟨h1, by omega, hip, ?_⟩
    intro j hloj hji hp
    have hjb : j ≤ s.length := by omega
    exact h3 j hloj hji ⟨hjb, hp⟩
  rw [pyFindNat, this]

lemma pyFindNat_eq_neg_of_forall {s sub : List Char} {lo : Nat}
    (h : ∀ j, lo ≤ j → ¬ occursAt s sub j) : pyFindNat s sub lo = -1 := by
  have : pyFindAux s sub lo (s.length + 1 - lo) = none := by
    rw [pyFindAux_eq_none_iff]
    intro j hloj hj hp
    have hjb : j ≤ s.length := by
      by_contra hgt
      push_neg at hgt
      have : s.drop j = [] := List.drop_eq_nil_of_le (by omega)
      rw [this] at hp
      have hsub : sub = [] := List.prefix_nil.mp hp
      subst hsub
      exact absurd ⟨le_refl s.length, by simp⟩ (h s.length (by omega))
    exact h j hloj ⟨hjb, hp⟩
  rw [pyFindNat, this]

lemma containsSub_eq_false_iff (s sub : List Char) :
    containsSub s sub = false ↔ ∀ j, ¬ occursAt s sub j := by
  rw [containsSub]
  simp only [List.any_eq_false, List.mem_range]
  constructor
  · intro h j ⟨hjb, hjp⟩
    exact h j (by omega) (List.isPrefixOf_iff_prefix.mpr hjp)
  · intro h j hj hp
    exact h j ⟨by omega, List.isPrefixOf_iff_prefix.mp hp⟩

/-! ## Python AST fragment and `utils.extract_single_function_name`

CPython's `ast.parse` is an external facility; its output is modelled by the
fragment below, which distinguishes exactly what `FunctionNameCollector`
distinguishes: `FunctionDef` nodes (visited by `visit_FunctionDef`, which
records the name and then `generic_visit`s the body), `AsyncFunctionDef`
nodes (no dedicated visitor, so only their children are visited) and every
other statement (children visited generically).  A parse attempt either
raises a `SyntaxError` or yields a module body. -/

inductive PyStmt where
  | functionDef (name : List Char) (body : List PyStmt)
  | asyncFunctionDef (name : List Char) (body : List PyStmt)
  | other (children : List PyStmt)

/-- Outcome of `ast.parse` on a source string. -/
inductive ParseResult where
  | syntaxError (msg : List Char)
  | parsed (body : List PyStmt)

mutual

/-- Names recorded by `FunctionNameCollector` while visiting one statement
(src/aimaker/utils.py lines 9-15): a `FunctionDef` contributes its own name
and then its visited body; everything else contributes only its children. -/
def collectNames : PyStmt → List (List Char)
  | .functionDef n body => n :: collectNamesList body
  | .asyncFunctionDef _ body => collectNamesList body
  | .other children => collectNamesList children

/-- Names recorded while visiting a list of statements, in order. -/
def collectNamesList : List PyStmt → List (List Char)
  | [] => []
  | s :: rest => collectNames s ++ collectNamesList rest

end

/-- `utils.extract_single_function_name` (src/aimaker/utils.py lines 4-25):
parses the code (a `SyntaxError` escapes as an exception, modelled as
`.error`), collects the function names, and returns the name iff exactly one
was collected, `None` otherwise. -/
def extract_single_function_name (p : ParseResult) : Except (List Char) (Option (List Char)) :=
  match p with
  | .syntaxError msg => .error msg
  | .parsed body =>
    match collectNamesList body with
    | [n] => .ok (some n)
    | _ => .ok none

/-! ## The generation pipeline (`main.py`)

The OpenAI call is an oracle `complete : Messages → Except e a` (the wrapper
re-raises provider errors unchanged, `client.py` lines 22-37; the fixed
`"gpt-4"` model and `0.5` temperature arguments are absorbed into the
oracle).  `ast.parse` is an oracle `parse : List Char → ParseResult`. -/

/-- A chat message stack: (role, content) pairs. -/
abbrev Messages := List (List Char × List Char)

inductive LogLevel where
  | info
  | error
deriving DecidableEq

/-- The logger, as the ordered list of emitted (level, message) records. -/
abbrev LogState := List (LogLevel × List Char)

/-- `PythonFunction` (main.py lines 16-19).  The `name` field is an
`Option`, because Python would happily store the `None` returned by a failed
extraction there. -/
structure PythonFunction where
  name : Option (List Char)
  content : List Char
deriving DecidableEq

/-- `PythonFunctionSuite` (main.py lines 22-25). -/
structure PythonFunctionSuite where
  function : PythonFunction
  test : PythonFunction
deriving DecidableEq

/-- `PythonFileScript` (main.py lines 28-37); the OpenAI client field is the
`complete` oracle, threaded separately. -/
structure PythonFileScript where
  functions : List PythonFunctionSuite
  module_name : List Char
deriving DecidableEq

/-- Python `str()` of an optional string, as used when interpolating a
possibly-`None` name into an f-string. -/
def pyStr : Option (List Char) → List Char
  | none => "None".toList
  | some s => s

def pythonFenceMarker : List Char := "```python".toList

def fenceMarker : List Char := "```".toList

/-- `PythonFileScript.generate_python_code` (main.py lines 40-59):
completes the prompt, slices the fenced code block out of the response,
extracts the function name inside `try/except Exception` (the except branch
logs the error and the script body and substitutes the sentinel `"lol"`),
raises `ValueError` if the name is `None`, and otherwise logs and returns
the `PythonFunction`. -/
def generate_python_code (complete : Messages → Except (List Char) (List Char))
    (parse : List Char → ParseResult) (instructions_input : Messages)
    (st : LogState) : LogState × Except (List Char) PythonFunction :=
  match complete instructions_input with
  | .error e => (st, .error e)
  | .ok response_content =>
    let python_script := extract_substring response_content pythonFenceMarker fenceMarker
    let attempt := extract_single_function_name (parse python_script)
    let st := match attempt with
      | .error e =>
        st ++ [(.error, "Error extracting function name: ".toList ++ e),
               (.error, "Python script: ".toList ++ python_script)]
      | .ok _ => st
    let function_name : Option (List Char) := match attempt with
      | .error _ => some "lol".toList
      | .ok fn => fn
    match function_name with
    | none =>
      (st, .error "The generated Python code does not contain exactly one function definition.".toList)
    | some fn =>
      (st ++ [(.info, "Generated Python function: ".toList ++ fn)],
        .ok ⟨some fn, python_script⟩)

/-- `PythonFileScript.generate_python_function` (main.py lines 61-68). -/
def generate_python_function (complete : Messages → Except (List Char) (List Char))
    (parse : List Char → ParseResult) (function_goal : List Char)
    (st : LogState) : LogState × Except (List Char) PythonFunction :=
  let prompt := "Write a Python function to ".toList ++ function_goal ++
    ". The code must be typed. The answer must only be the python code and nothing else.".toList
  generate_python_code complete parse
    [("system".toList, "You are a python programmer.".toList),
     ("user".toList, prompt)] st

/-- `PythonFileScript.generate_python_test` (main.py lines 70-83);
`module_name` is the `self.module_name` of the calling script. -/
def generate_python_test (complete : Messages → Except (List Char) (List Char))
    (parse : List Char → ParseResult) (function_to_test : PythonFunction)
    (script_package_name module_name : List Char)
    (st : LogState) : LogState × Except (List Char) PythonFunction :=
  let prompt := "Write a Python test for the function above. The code must be typed and shall use pytest parametric tests. The function must be called test_".toList ++
    pyStr function_to_test.name ++
    " The answer must only be the python code and nothing else.".toList
  generate_python_code complete parse
    [("system".toList, "You are a python programmer.".toList),
     ("user".toList,
       "The module can be imported with ```python\nfrom ".toList ++
       script_package_name ++ " import ".toList ++ module_name ++
       "\n```\nCode to test:\n```python\n".toList ++
       function_to_test.content ++ "\n```".toList),
     ("user".toList, prompt)] st

/-- `PythonFileScript.add_function` (main.py lines 85-90): generate the
function, then the test, then append the suite; an exception in either
generation step propagates and the script is left unchanged. -/
def script_add_function (complete : Messages → Except (List Char) (List Char))
    (parse : List Char → ParseResult) (function_goal script_package_name : List Char)
    (s : PythonFileScript) (st : LogState) :
    LogState × PythonFileScript × Except (List Char) Unit :=
  match generate_python_function complete parse function_goal st with
  | (st, .error e) => (st, s, .error e)
  | (st, .ok python_function) =>
    match generate_python_test complete parse python_function script_package_name
        s.module_name st with
    | (st, .error e) => (st, s, .error e)
    | (st, .ok python_test) =>
      (st, { s with functions := s.functions ++ [⟨python_function, python_test⟩] }, .ok ())

/-- `PythonPackage.add_function` (main.py lines 167-175): build a fresh
script with module name `"main"` and no suites, run its `add_function`, and
append it to the package's script list; an exception propagates and leaves
the script list unchanged. -/
def package_add_function (complete : Messages → Except (List Char) (List Char))
    (parse : List Char → ParseResult) (function_goal package_name : List Char)
    (scripts : List PythonFileScript) (st : LogState) :
    LogState × List PythonFileScript × Except (List Char) Unit :=
  let my_script : PythonFileScript := ⟨[], "main".toList⟩
  match script_add_function complete parse function_goal package_name my_script st with
  | (st, s, .ok ()) => (st, scripts ++ [s], .ok ())
  | (st, _, .error e) => (st, scripts, .error e)

/-! ## File serialization (`write_to_file`, `write_files`)

Files are modelled as a map from path strings to contents; opening a file
with mode `"w"` truncates it, so the loop of writes amounts to storing the
concatenation of the pieces in order. -/

/-- `os.path.join` on two POSIX components: an absolute second component
replaces the first; otherwise a single separator is inserted unless one is
already present. -/
def os_path_join (a b : List Char) : List Char :=
  if b.head? = some '/' then b
  else if a = [] then b
  else if a.getLast? = some '/' then a ++ b
  else a ++ '/' :: b

/-- The module path `os.path.join(workspace, package_name, f"{module_name}.py")`
(main.py line 93). -/
def script_filepath (workspace package_name module_name : List Char) : List Char :=
  os_path_join (os_path_join workspace package_name) (module_name ++ ".py".toList)

/-- The test path `os.path.join(workspace, "tests", f"test_{module_name}.py")`
(main.py line 97). -/
def test_filepath (workspace module_name : List Char) : List Char :=
  os_path_join (os_path_join workspace "tests".toList)
    ("test_".toList ++ module_name ++ ".py".toList)

/-- A flat file store: path → contents. -/
abbrev FS := List Char → Option (List Char)

/-- Opening a path with mode `"w"` and writing `c` in total. -/
def fsWrite (fs : FS) (p c : List Char) : FS :=
  fun q => if q = p then some c else fs q

/-- `PythonFileScript.write_to_file` (main.py lines 92-100): truncate the
module file and write every suite's function content in order, then do the
same for the test file with the test contents. -/
def write_to_file (s : PythonFileScript) (workspace package_name : List Char)
    (fs : FS) : FS :=
  let fs1 := fsWrite fs (script_filepath workspace package_name s.module_name)
    (s.functions.foldl (fun acc function_set => acc ++ function_set.function.content) [])
  fsWrite fs1 (test_filepath workspace s.module_name)
    (s.functions.foldl (fun acc function_set => acc ++ function_set.test.content) [])

/-- `PythonPackage.write_files` (main.py lines 145-147). -/
def write_files (workspace package_name : List Char)
    (scripts : List PythonFileScript) (fs : FS) : FS :=
  scripts.foldl (fun fs script => write_to_file script workspace package_name fs) fs

lemma foldl_append_eq_join {α : Type} (f : α → List Char) (l : List α) :
    ∀ init : List Char,
      l.foldl (fun acc x => acc ++ f x) init = init ++ (l.map f).flatten := by
  induction l with
  | nil => intro init; simp
  | cons x xs ih => intro init; simp [ih, List.append_assoc]

/-- The two paths a script serializes to are always distinct. -/
lemma script_filepath_ne_test_filepath (ws pkg mod : List Char) :
    script_filepath ws pkg mod ≠ test_filepath ws mod := by
  have hAlast : (os_path_join ws "tests".toList).getLast? = some 's' := by
    rw [os_path_join]
    split
    · next h => simp at h
    · split
      · decide
      · split
        · rw [List.getLast?_append_of_ne_nil _ (by decide)]; decide
        · rw [List.getLast?_append_of_ne_nil _ (by decide)]; decide
  have hAne : os_path_join ws "tests".toList ≠ [] := by
    intro hcontra
    rw [hcontra] at hAlast
    simp at hAlast
  set A := os_path_join ws "tests".toList with hAdef
  have hT : test_filepath ws mod =
      (A ++ '/' :: "test_".toList) ++ (mod ++ ".py".toList) := by
    rw [test_filepath, ← hAdef, os_path_join]
    have h1 : ¬ ("test_".toList ++ mod ++ ".py".toList).head? = some '/' := by
      rw [List.append_assoc, List.head?_append_of_ne_nil _ (by decide)]
      decide
    rw [if_neg h1, if_neg hAne, if_neg (by rw [hAlast]; decide)]
    simp [List.append_assoc]
  intro hEq
  rw [hT, script_filepath, os_path_join] at hEq
  have hTlen : ((A ++ '/' :: "test_".toList) ++ (mod ++ ".py".toList)).length =
      A.length + 6 + (mod.length + 3) := by
    simp [List.length_append]
    omega
  have hAlen : 1 ≤ A.length := by
    cases hA : A with
    | nil => exact absurd hA hAne
    | cons a as => simp
  split at hEq
  · -- absolute module component: the module path is just `mod ++ ".py"`
    have := congrArg List.length hEq
    rw [hTlen] at this
    simp only [List.length_append] at this
    simp at this
  · split at hEq
    · have := congrArg List.length hEq
      rw [hTlen] at this
      simp only [List.length_append] at this
      simp at this
    · split at hEq
      · next h1 h2 h3 =>
        have hcancel := List.append_cancel_right hEq
        have := congrArg List.getLast? hcancel
        rw [h3, List.getLast?_append_of_ne_nil _ (by decide)] at this
        simp at this
      · next h1 h2 h3 =>
        have hEq' : (os_path_join ws pkg ++ ['/']) ++ (mod ++ ".py".toList) =
            (A ++ '/' :: "test_".toList) ++ (mod ++ ".py".toList) := by
          simpa [List.append_assoc] using hEq
        have hcancel := List.append_cancel_right hEq'
        have := congrArg List.getLast? hcancel
        rw [List.getLast?_append_of_ne_nil _ (by decide),
          List.getLast?_append_of_ne_nil _ (by decide)] at this
        simp at this

/-- Reading back the two files a single `write_to_file` wrote. -/
lemma write_to_file_read (s : PythonFileScript) (ws pkg : List Char) (fs : FS) :
    write_to_file s ws pkg fs (script_filepath ws pkg s.module_name) =
      some ((s.functions.map fun function_set => function_set.function.content).flatten) ∧
    write_to_file s ws pkg fs (test_filepath ws s.module_name) =
      some ((s.functions.map fun function_set => function_set.test.content).flatten) := by
  constructor
  · simp only [write_to_file, fsWrite]
    rw [if_neg (script_filepath_ne_test_filepath ws pkg s.module_name)]
    rw [if_pos trivial, foldl_append_eq_join]
    simp
  · simp only [write_to_file, fsWrite]
    rw [if_pos trivial, foldl_append_eq_join]
    simp

/-! ## Workspace initialization (`PythonPackage.init_workspace`)

The file system is modelled one level deep at the top: a `Root` maps a
top-level name (the constructor's `workspace_directory` / `backup_directory`
arguments, single path components in the program's configuration) to a node;
a directory node carries its entries as an association list in creation
order. -/

inductive Node where
  | file (content : List Char)
  | dir (entries : List (List Char × Node))

abbrev Entries := List (List Char × Node)

abbrev Root := List Char → Option Node

/-- Look an entry up in a directory listing (names are unique in a real
directory, so the first match is the entry). -/
def lookupE : Entries → List Char → Option Node
  | [], _ => none
  | (m, v) :: es, n => if m = n then some v else lookupE es n

/-- Store an entry: overwrite in place when the name exists, otherwise
append (a new name lands at the end of the listing). -/
def setE : Entries → List Char → Node → Entries
  | [], n, v => [(n, v)]
  | (m, w) :: es, n, v => if m = n then (n, v) :: es else (m, w) :: setE es n v

/-- Remove an entry. -/
def removeE : Entries → List Char → Entries
  | [], _ => []
  | (m, w) :: es, n => if m = n then es else (m, w) :: removeE es n

def updateRoot (r : Root) (n : List Char) (v : Node) : Root :=
  fun m => if m = n then some v else r m

/-- `os.listdir` on a top-level directory. -/
def listdir (r : Root) (d : List Char) : Except Unit (List (List Char)) :=
  match r d with
  | some (.dir es) => .ok (es.map fun p => p.1)
  | _ => .error ()

/-- `os.makedirs(d, exist_ok := ok)` for a top-level directory `d`. -/
def makedirs_root (r : Root) (d : List Char) (exist_ok : Bool) : Except Unit Root :=
  match r d with
  | some (.dir _) => if exist_ok then .ok r else .error ()
  | some (.file _) => .error ()
  | none => .ok (updateRoot r d (.dir []))

/-- `os.makedirs(os.path.join(b, ts))` (no `exist_ok`): create the backup
root `b` if needed, then a fresh `ts` inside it; raises if `b/ts` already
exists or `b` is a file. -/
def makedirs_backup_sub (r : Root) (b ts : List Char) : Except Unit Root :=
  match r b with
  | some (.file _) => .error ()
  | some (.dir bes) =>
    match lookupE bes ts with
    | some _ => .error ()
    | none => .ok (updateRoot r b (.dir (setE bes ts (.dir []))))
  | none => .ok (updateRoot r b (.dir [(ts, .dir [])]))

/-- `os.makedirs(os.path.join(d, sub), exist_ok := ok)` for a directory one
level below the top-level `d`. -/
def makedirs_in (r : Root) (d sub : List Char) (exist_ok : Bool) : Except Unit Root :=
  match r d with
  | some (.dir es) =>
    match lookupE es sub with
    | some (.dir _) => if exist_ok then .ok r else .error ()
    | some (.file _) => .error ()
    | none => .ok (updateRoot r d (.dir (setE es sub (.dir []))))
  | some (.file _) => .error ()
  | none => .ok (updateRoot r d (.dir [(sub, .dir [])]))

/-- `open(os.path.join(d, sub, fname), "w")` writing `content`. -/
def write_file_in (r : Root) (d sub fname content : List Char) : Except Unit Root :=
  match r d with
  | some (.dir es) =>
    match lookupE es sub with
    | some (.dir ses) =>
      .ok (updateRoot r d (.dir (setE es sub (.dir (setE ses fname (.file content))))))
    | _ => .error ()
  | _ => .error ()

/-- `os.rename(os.path.join(ws, n), os.path.join(bk, ts, n))`
(main.py lines 131-134, one loop iteration). -/
def rename_to_backup (r : Root) (ws n bk ts : List Char) : Except Unit Root :=
  match r ws with
  | some (.dir es) =>
    match lookupE es n with
    | some node =>
      let r1 := updateRoot r ws (.dir (removeE es n))
      match r1 bk with
      | some (.dir bes) =>
        match lookupE bes ts with
        | some (.dir tes) =>
          .ok (updateRoot r1 bk (.dir (setE bes ts (.dir (setE tes n node)))))
        | _ => .error ()
      | _ => .error ()
    | none => .error ()
  | _ => .error ()

/-- The backup block of `init_workspace` (main.py lines 126-134), guarded by
the truthiness test `if os.listdir(self._workspace_directory):` on the first
listing `wsList`: create the timestamped backup subdirectory, then move
every entry of the (re-listed) workspace into it. -/
def backup_to_timestamp (ws bk ts : List Char) (wsList : List (List Char))
    (r : Root) : Except Unit Root :=
  if wsList.isEmpty then pure r
  else do
    let r ← makedirs_backup_sub r bk ts
    let names ← listdir r ws
    names.foldlM (fun r n => rename_to_backup r ws n bk ts) r

/-- `PythonPackage.init_workspace` (main.py lines 122-143), with the
timestamp `time.strftime("%Y%m%d-%H%M%S")` supplied as the parameter `ts`:
ensure the workspace exists; if it is non-empty, create the timestamped
backup subdirectory and move every workspace entry into it; then create the
package and test subdirectories, each with an empty `__init__.py`. -/
def init_workspace (ws bk pkg ts : List Char) (r : Root) : Except Unit Root := do
  let r ← makedirs_root r ws true
  let wsList ← listdir r ws
  let r ← backup_to_timestamp ws bk ts wsList r
  let r ← makedirs_in r ws pkg true
  let r ← write_file_in r ws pkg "__init__.py".toList []
  let r ← makedirs_in r ws "tests".toList true
  write_file_in r ws "tests".toList "__init__.py".toList []

lemma except_ok_bind {ε α β : Type} (a : α) (f : α → Except ε β) :
    (Except.ok a >>= f) = f a := rfl

/-! ### Helper lemmas about the directory operations -/

lemma updateRoot_same (r : Root) (n : List Char) (v : Node) :
    updateRoot r n v n = some v := by
  simp [updateRoot]

lemma updateRoot_ne (r : Root) {m n : List Char} (v : Node) (h : m ≠ n) :
    updateRoot r n v m = r m := by
  simp [updateRoot, h]

lemma lookupE_setE_same (es : Entries) (n : List Char) (v : Node) :
    lookupE (setE es n v) n = some v := by
  induction es with
  | nil => simp [setE, lookupE]
  | cons q qs ih =>
    obtain ⟨m, w⟩ := q
    by_cases hq : m = n
    · simp [setE, hq, lookupE]
    · simp [setE, hq, lookupE, ih]

lemma lookupE_setE_ne (es : Entries) {m n : List Char} (v : Node) (h : m ≠ n) :
    lookupE (setE es n v) m = lookupE es m := by
  have hnm : ¬ n = m := fun hc => h hc.symm
  induction es with
  | nil => simp [setE, lookupE, hnm]
  | cons q qs ih =>
    obtain ⟨k, w⟩ := q
    by_cases hk : k = n
    · subst hk
      simp [setE, lookupE, hnm]
    · by_cases hkm : k = m
      · simp [setE, hk, lookupE, hkm, h]
      · simp [setE, hk, lookupE, hkm, ih]

lemma removeE_cons_self (n : List Char) (v : Node) (es : Entries) :
    removeE ((n, v) :: es) n = es := by
  simp [removeE]

lemma setE_append_of_none (es : Entries) (n : List Char) (v : Node)
    (h : lookupE es n = none) : setE es n v = es ++ [(n, v)] := by
  induction es with
  | nil => simp [setE]
  | cons q qs ih =>
    obtain ⟨m, w⟩ := q
    rw [lookupE] at h
    split at h
    · cases h
    · next hm => simp [setE, hm, ih h]

lemma lookupE_append_singleton_ne (acc : Entries) {n k : List Char} (v : Node)
    (h1 : lookupE acc k = none) (h2 : ¬ n = k) :
    lookupE (acc ++ [(n, v)]) k = none := by
  induction acc with
  | nil => simp [lookupE, h2]
  | cons q qs ih =>
    obtain ⟨m, w⟩ := q
    rw [lookupE] at h1
    split at h1
    · cases h1
    · next hm => simp [lookupE, hm, ih h1]

/-- Running the backup loop of `init_workspace` over the workspace listing:
every entry is moved, in listing order, into the (initially `acc`-filled)
timestamp directory `bk/ts`. -/
lemma foldlM_rename (ws bk ts : List Char) (hne : ws ≠ bk) :
    ∀ (es : Entries) (r : Root) (acc : Entries),
      r ws = some (.dir es) →
      (∀ p ∈ es, lookupE acc p.1 = none) →
      ((es.map fun p => p.1).Nodup) →
      ∀ bes, r bk = some (.dir bes) → lookupE bes ts = some (.dir acc) →
      ∃ r', (es.map fun p => p.1).foldlM
          (fun r n => rename_to_backup r ws n bk ts) r = .ok r' ∧
        r' ws = some (.dir []) ∧
        ∃ bes', r' bk = some (.dir bes') ∧
          lookupE bes' ts = some (.dir (acc ++ es)) := by
  intro es
  induction es with
  | nil =>
    intro r acc hws _ _ bes hbk hts
    exact ⟨r, rfl, hws, bes, hbk, by simpa using hts⟩
  | cons p tl ih =>
    intro r acc hws hfresh hnodup bes hbk hts
    obtain ⟨n, v⟩ := p
    have hbkws : ¬ bk = ws := fun hc => hne hc.symm
    have hstep : rename_to_backup r ws n bk ts =
        .ok (updateRoot (updateRoot r ws (.dir tl)) bk
          (.dir (setE bes ts (.dir (acc ++ [(n, v)]))))) := by
      have hl : lookupE ((n, v) :: tl) n = some v := by simp [lookupE]
      have hup : updateRoot r ws (Node.dir tl) bk = r bk := updateRoot_ne r _ hbkws
      simp only [rename_to_backup, hws, hl, removeE_cons_self, hup, hbk, hts]
      rw [setE_append_of_none acc n v (hfresh (n, v) (by simp))]
    have hr2ws : updateRoot (updateRoot r ws (.dir tl)) bk
        (.dir (setE bes ts (.dir (acc ++ [(n, v)])))) ws = some (.dir tl) := by
      rw [updateRoot_ne _ _ hne, updateRoot_same]
    have hr2bk : updateRoot (updateRoot r ws (.dir tl)) bk
        (.dir (setE bes ts (.dir (acc ++ [(n, v)])))) bk =
        some (.dir (setE bes ts (.dir (acc ++ [(n, v)])))) := updateRoot_same _ _ _
    have hfresh' : ∀ q ∈ tl, lookupE (acc ++ [(n, v)]) q.1 = none := by
      intro q hq
      have hn : ¬ n = q.1 := by
        simp only [List.map_cons, List.nodup_cons] at hnodup
        intro hc
        exact hnodup.1 (hc ▸ List.mem_map_of_mem (fun p => p.1) hq)
      exact lookupE_append_singleton_ne acc _ (hfresh q (by simp [hq])) hn
    have hnodup' : (tl.map fun p => p.1).Nodup := by
      simp only [List.map_cons, List.nodup_cons] at hnodup
      exact hnodup.2
    obtain ⟨r', hfold, hr'ws, bes', hr'bk, hr'ts⟩ :=
      ih (updateRoot (updateRoot r ws (.dir tl)) bk
          (.dir (setE bes ts (.dir (acc ++ [(n, v)]))))) (acc ++ [(n, v)])
        hr2ws hfresh' hnodup' (setE bes ts (.dir (acc ++ [(n, v)]))) hr2bk
        (lookupE_setE_same bes ts _)
    refine ⟨r', ?_, hr'ws, bes', hr'bk, by simpa [List.append_assoc] using hr'ts⟩
    rw [List.map_cons, List.foldlM_cons, hstep]
    exact hfold

/-- C4: on a non-empty workspace root, `init_workspace` moves every existing
entry into the freshly created timestamp-named subdirectory `bk/ts` of the
backup root (one backup folder per initialization), and leaves the
workspace root holding exactly the newly created package and test
subdirectories, each containing an empty `__init__.py`. -/
theorem claim_C4 (ws bk pkg ts : List Char) (r : Root) (es : Entries)
    (hws : r ws = some (.dir es)) (hne : es ≠ [])
    (hnodup : ((es.map fun p => p.1).Nodup))
    (hwsbk : ws ≠ bk) (hpkg : pkg ≠ "tests".toList)
    (hbk : r bk = none ∨ ∃ bes, r bk = some (.dir bes) ∧ lookupE bes ts = none) :
    ∃ r', init_workspace ws bk pkg ts r = .ok r' ∧
      r' ws = some (.dir
        [(pkg, .dir [("__init__.py".toList, .file [])]),
         ("tests".toList, .dir [("__init__.py".toList, .file [])])]) ∧
      ∃ bes', r' bk = some (.dir bes') ∧ lookupE bes' ts = some (.dir es) := by
  have hbkws : ¬ bk = ws := fun hc => hwsbk hc.symm
  -- step 1: os.makedirs(workspace, exist_ok=True) is a no-op
  have h1 : makedirs_root r ws true = .ok r := by
    simp only [makedirs_root, hws, if_pos]
  -- step 2: the workspace listing is non-empty
  have h2 : listdir r ws = .ok (es.map fun p => p.1) := by
    simp only [listdir, hws]
  have h3 : (es.map fun p => p.1).isEmpty = false := by
    cases es with
    | nil => exact absurd rfl hne
    | cons p tl => simp
  -- step 3: the timestamped backup directory is created
  obtain ⟨r2, bes2, h4, h5, h6, h7⟩ :
      ∃ r2 bes2, makedirs_backup_sub r bk ts = .ok r2 ∧
        r2 bk = some (.dir bes2) ∧ lookupE bes2 ts = some (.dir []) ∧
        r2 ws = some (.dir es) := by
    rcases hbk with hnone | ⟨bes, hsome, hts⟩
    · exact ⟨updateRoot r bk (.dir [(ts, .dir [])]), [(ts, .dir [])],
        by simp only [makedirs_backup_sub, hnone], updateRoot_same _ _ _,
        by simp [lookupE],
        by rw [updateRoot_ne r _ hwsbk, hws]⟩
    · exact ⟨updateRoot r bk (.dir (setE bes ts (.dir []))), setE bes ts (.dir []),
        by simp only [makedirs_backup_sub, hsome, hts], updateRoot_same _ _ _,
        lookupE_setE_same bes ts _,
        by rw [updateRoot_ne r _ hwsbk, hws]⟩
  -- step 4: the second listing and the backup move loop
  have h8 : listdir r2 ws = .ok (es.map fun p => p.1) := by
    simp only [listdir, h7]
  obtain ⟨r3, h9, h10, bes3, h11, h12⟩ :=
    foldlM_rename ws bk ts hwsbk es r2 [] h7 (by intro p _; rfl) hnodup bes2 h5 h6
  simp only [List.nil_append] at h12
  -- step 5: package dir, its __init__.py, test dir, its __init__.py
  have h13 : makedirs_in r3 ws pkg true =
      .ok (updateRoot r3 ws (.dir [(pkg, .dir [])])) := by
    simp only [makedirs_in, h10, lookupE, setE, if_pos]
  have hr4ws : updateRoot r3 ws (.dir [(pkg, .dir [])]) ws =
      some (.dir [(pkg, .dir [])]) := updateRoot_same _ _ _
  have h14 : write_file_in (updateRoot r3 ws (.dir [(pkg, .dir [])])) ws pkg
      "__init__.py".toList [] =
      .ok (updateRoot (updateRoot r3 ws (.dir [(pkg, .dir [])])) ws
        (.dir [(pkg, .dir [("__init__.py".toList, .file [])])])) := by
    have hl : lookupE [(pkg, Node.dir [])] pkg = some (.dir []) := by
      simp [lookupE]
    simp only [write_file_in, hr4ws, hl, setE, if_pos]
  set r5 := updateRoot (updateRoot r3 ws (.dir [(pkg, .dir [])])) ws
    (.dir [(pkg, .dir [("__init__.py".toList, .file [])])]) with hr5def
  have hr5ws : r5 ws = some (.dir [(pkg, .dir [("__init__.py".toList, .file [])])]) :=
    updateRoot_same _ _ _
  have h15 : makedirs_in r5 ws "tests".toList true =
      .ok (updateRoot r5 ws (.dir
        [(pkg, .dir [("__init__.py".toList, .file [])]),
         ("tests".toList, .dir [])])) := by
    have hl : lookupE [(pkg, Node.dir [("__init__.py".toList, Node.file [])])]
        "tests".toList = none := by
      simp only [lookupE]
      rw [if_neg hpkg]
    simp only [makedirs_in, hr5ws, hl, setE]
    rw [if_neg hpkg]
  set r6 := updateRoot r5 ws (.dir
    [(pkg, .dir [("__init__.py".toList, .file [])]),
     ("tests".toList, .dir [])]) with hr6def
  have hr6ws : r6 ws = some (.dir
      [(pkg, .dir [("__init__.py".toList, .file [])]),
       ("tests".toList, .dir [])]) := updateRoot_same _ _ _
  have h16 : write_file_in r6 ws "tests".toList "__init__.py".toList [] =
      .ok (updateRoot r6 ws (.dir
        [(pkg, .dir [("__init__.py".toList, .file [])]),
         ("tests".toList, .dir [("__init__.py".toList, .file [])])])) := by
    have hl : lookupE
        [(pkg, Node.dir [("__init__.py".toList, Node.file [])]),
         ("tests".toList, Node.dir [])] "tests".toList = some (.dir []) := by
      simp only [lookupE]
      rw [if_neg hpkg]
      simp
    simp only [write_file_in, hr6ws, hl, setE]
    rw [if_neg hpkg]
    simp
  have hB : backup_to_timestamp ws bk ts (es.map fun p => p.1) r = .ok r3 := by
    rw [backup_to_timestamp, if_neg (by rw [h3]; exact Bool.false_ne_true)]
    simp only [h4, except_ok_bind, h8, h9]
  refine ⟨updateRoot r6 ws (.dir
      [(pkg, .dir [("__init__.py".toList, .file [])]),
       ("tests".toList, .dir [("__init__.py".toList, .file [])])]), ?_, ?_, ?_⟩
  · simp only [init_workspace, h1, except_ok_bind, h2, hB, h13, h14, h15]
    exact h16
  · exact updateRoot_same _ _ _
  · refine ⟨bes3, ?_, h12⟩
    show updateRoot r6 ws _ bk = _
    rw [updateRoot_ne _ _ hbkws, hr6def, updateRoot_ne _ _ hbkws, hr5def,
      updateRoot_ne _ _ hbkws, updateRoot_ne _ _ hbkws]
    exact h11

/-! ## Supporting instances for concrete evaluation -/

instance {ε α : Type} [DecidableEq ε] [DecidableEq α] : DecidableEq (Except ε α) := fun
  | .ok a, .ok b =>
    if h : a = b then .isTrue (by rw [h]) else .isFalse (by intro hc; cases hc; exact h rfl)
  | .error a, .error b =>
    if h : a = b then .isTrue (by rw [h]) else .isFalse (by intro hc; cases hc; exact h rfl)
  | .ok _, .error _ => .isFalse (by intro hc; cases hc)
  | .error _, .ok _ => .isFalse (by intro hc; cases hc)

/-! ## The claims -/

/-- C5: `extract_substring` returns the substring strictly between the end of
the first occurrence of `start_marker` and the first occurrence of
`end_marker` found after it; it returns the text unchanged when
`start_marker` is absent, when `end_marker` is absent, and when every
occurrence of `end_marker` lies before the end of the first occurrence of
`start_marker`; and on the fenced-code example it yields the code block. -/
theorem claim_C5 :
    (∀ s sm em i k, firstOccFrom s sm 0 i → firstOccFrom s em (i + sm.length) k →
      extract_substring s sm em = (s.take k).drop (i + sm.length)) ∧
    (∀ s sm em, containsSub s sm = false → extract_substring s sm em = s) ∧
    (∀ s sm em, containsSub s em = false → extract_substring s sm em = s) ∧
    (∀ s sm em i, firstOccFrom s sm 0 i →
      (∀ j, j ≤ s.length → occursAt s em j → j < i + sm.length) →
      extract_substring s sm em = s) ∧
    extract_substring "```python\nx=1\n```".toList "```python".toList "```".toList =
      "\nx=1\n".toList := by
  refine ⟨?_, ?_, ?_, ?_, by decide⟩
  · intro s sm em i k h1 h2
    have e1 : pyFindNat s sm 0 = i := pyFindNat_eq_of_firstOcc h1
    have e2 : pyFindNat s em (i + sm.length) = k := pyFindNat_eq_of_firstOcc h2
    have hcl : ((i : Int) + (sm.length : Int)).toNat = i + sm.length := by omega
    simp only [extract_substring, pyFind, e1]
    rw [if_neg (show ¬ ((i : Int) + (sm.length : Int) < 0) by omega), hcl, e2]
    rw [if_pos ⟨show (sm.length : Int) ≤ (i : Int) + (sm.length : Int) by omega,
      show (k : Int) ≠ -1 by omega⟩]
    simp [hcl]
  · intro s sm em hsm
    have hall := (containsSub_eq_false_iff s sm).mp hsm
    have e1 : pyFindNat s sm 0 = -1 :=
      pyFindNat_eq_neg_of_forall fun j _ => hall j
    have hsm1 : 1 ≤ sm.length := by
      rcases Nat.eq_zero_or_pos sm.length with h0 | h1
      · exact absurd ⟨Nat.zero_le _, by simp [List.length_eq_zero.mp h0]⟩ (hall 0)
      · exact h1
    simp only [extract_substring, e1]
    rw [if_neg]
    rintro ⟨hle, -⟩
    omega
  · intro s sm em hem
    have hall := (containsSub_eq_false_iff s em).mp hem
    have e2 : ∀ lo, pyFindNat s em lo = -1 := fun lo =>
      pyFindNat_eq_neg_of_forall fun j _ => hall j
    simp only [extract_substring, pyFind, e2]
    rw [if_neg]
    rintro ⟨-, hne⟩
    exact hne rfl
  · intro s sm em i h1 hEm
    have e1 : pyFindNat s sm 0 = i := pyFindNat_eq_of_firstOcc h1
    have hcl : ((i : Int) + (sm.length : Int)).toNat = i + sm.length := by omega
    have e2 : pyFindNat s em (i + sm.length) = -1 := by
      apply pyFindNat_eq_neg_of_forall
      intro j hj hocc
      exact absurd (hEm j hocc.1 hocc) (by omega)
    simp only [extract_substring, pyFind, e1]
    rw [if_neg (show ¬ ((i : Int) + (sm.length : Int) < 0) by omega), hcl, e2]
    rw [if_neg]
    rintro ⟨-, hne⟩
    exact hne rfl

/-- Concrete instantiation of the positive clause of C5: in `"abXcd"` the
marker `"ab"` first occurs at 0 and `"cd"` first occurs (searching from 2)
at 3, and the extracted slice is `"X"`. -/
theorem claim_C5_witness :
    firstOccFrom "abXcd".toList "ab".toList 0 0 ∧
    firstOccFrom "abXcd".toList "cd".toList (0 + "ab".toList.length) 3 ∧
    extract_substring "abXcd".toList "ab".toList "cd".toList =
      ("abXcd".toList.take 3).drop (0 + "ab".toList.length) :=
  ⟨by decide, by decide, claim_C5.1 _ _ _ 0 3 (by decide) (by decide)⟩

/-- C6: `extract_single_function_name` returns the collected name exactly
when the collector (which also counts nested `def`s) recorded exactly one
name, and the `None` signal otherwise — in particular `"foo"` for
`def foo():\n pass`, and `None` for `x = 1` and for two top-level defs. -/
theorem claim_C6 :
    (∀ body n, collectNamesList body = [n] →
      extract_single_function_name (.parsed body) = .ok (some n)) ∧
    (∀ body, (collectNamesList body).length ≠ 1 →
      extract_single_function_name (.parsed body) = .ok none) ∧
    extract_single_function_name
      (.parsed [.functionDef "foo".toList [.other []]]) = .ok (some "foo".toList) ∧
    extract_single_function_name (.parsed [.other []]) = .ok none ∧
    extract_single_function_name
      (.parsed [.functionDef "a".toList [.other []],
                .functionDef "b".toList [.other []]]) = .ok none := by
  have hone : ∀ body n, collectNamesList body = [n] →
      extract_single_function_name (.parsed body) = .ok (some n) := by
    intro body n h
    rw [extract_single_function_name, h]
  have hnone : ∀ body, (collectNamesList body).length ≠ 1 →
      extract_single_function_name (.parsed body) = .ok none := by
    intro body h
    rw [extract_single_function_name]
    rcases hc : collectNamesList body with - | ⟨n, - | ⟨m, tl⟩⟩
    · rfl
    · rw [hc] at h; simp at h
    · rfl
  refine ⟨hone, hnone, ?_, ?_, ?_⟩
  · exact hone _ _ (by simp [collectNamesList, collectNames])
  · exact hnone _ (by simp [collectNamesList, collectNames])
  · exact hnone _ (by simp [collectNamesList, collectNames])

/-- Concrete instantiation of C6's single-collected-name clause on the
parse of `"def foo():\n pass"`. -/
theorem claim_C6_witness :
    collectNamesList [.functionDef "foo".toList [.other []]] = ["foo".toList] ∧
    extract_single_function_name
      (.parsed [.functionDef "foo".toList [.other []]]) = .ok (some "foo".toList) :=
  ⟨by simp [collectNamesList, collectNames],
   claim_C6.1 _ _ (by simp [collectNamesList, collectNames])⟩

/-- C10: `visit_FunctionDef` is the only visitor the collector defines, so
an `async def` contributes no name; a source whose sole function definition
is an `async def` yields the `None` signal. -/
theorem claim_C10 :
    (∀ n body, collectNamesList body = [] →
      extract_single_function_name (.parsed [.asyncFunctionDef n body]) = .ok none) ∧
    extract_single_function_name
      (.parsed [.asyncFunctionDef "foo".toList [.other []]]) = .ok none := by
  have hasync : ∀ n body, collectNamesList body = [] →
      extract_single_function_name (.parsed [.asyncFunctionDef n body]) = .ok none := by
    intro n body h
    rw [extract_single_function_name]
    have : collectNamesList [PyStmt.asyncFunctionDef n body] = [] := by
      simp [collectNamesList, collectNames, h]
    rw [this]
  exact ⟨hasync, hasync _ _ (by simp [collectNamesList, collectNames])⟩

/-- Concrete instantiation of C10 on the parse of
`"async def foo(): pass"`. -/
theorem claim_C10_witness :
    collectNamesList [PyStmt.other []] = [] ∧
    extract_single_function_name
      (.parsed [.asyncFunctionDef "bar".toList [.other []]]) = .ok none :=
  ⟨by simp [collectNamesList, collectNames],
   claim_C10.1 _ _ (by simp [collectNamesList, collectNames])⟩

/-- Oracle returning a fenced response whose code block does not parse. -/
def c1_complete : Messages → Except (List Char) (List Char) :=
  fun _ => .ok "```python\n1/\n```".toList

/-- Parse oracle raising a `SyntaxError` on every input. -/
def c1_parse : List Char → ParseResult :=
  fun _ => .syntaxError "invalid syntax".toList

/-- Counterexample to C1 as stated: the extracted script fails to parse
(`c1_parse` raises), yet `generate_python_code` returns normally — the
blanket `except Exception` of main.py lines 47-52 catches the
`SyntaxError` and substitutes the sentinel name `"lol"`, so nothing
propagates to the caller. -/
theorem claim_C1_counterexample :
    c1_parse (extract_substring "```python\n1/\n```".toList pythonFenceMarker fenceMarker) =
      .syntaxError "invalid syntax".toList ∧
    (generate_python_code c1_complete c1_parse [] []).2 =
      .ok ⟨some "lol".toList, "\n1/\n".toList⟩ := by
  constructor
  · rfl
  · decide

/-- C1 amended: a `SyntaxError`-kind failure inside
`extract_single_function_name` is caught by the `except Exception` handler
of `generate_python_code`, which logs the error and the offending script
body, substitutes the sentinel name `"lol"`, and returns normally; the
error does not propagate. -/
theorem claim_C1 (complete : Messages → Except (List Char) (List Char))
    (parse : List Char → ParseResult) (msgs : Messages) (st : LogState)
    (resp e : List Char) (hc : complete msgs = .ok resp)
    (hp : parse (extract_substring resp pythonFenceMarker fenceMarker) = .syntaxError e) :
    generate_python_code complete parse msgs st =
      (st ++ [(.error, "Error extracting function name: ".toList ++ e),
              (.error, "Python script: ".toList ++
                extract_substring resp pythonFenceMarker fenceMarker),
              (.info, "Generated Python function: ".toList ++ "lol".toList)],
       .ok ⟨some "lol".toList,
         extract_substring resp pythonFenceMarker fenceMarker⟩) := by
  simp [generate_python_code, hc, hp, extract_single_function_name]

/-- Concrete instantiation of the amended C1 on `c1_complete`/`c1_parse`. -/
theorem claim_C1_witness :
    c1_complete [] = .ok "```python\n1/\n```".toList ∧
    c1_parse (extract_substring "```python\n1/\n```".toList pythonFenceMarker fenceMarker) =
      .syntaxError "invalid syntax".toList ∧
    generate_python_code c1_complete c1_parse [] [] =
      ([] ++ [(.error, "Error extracting function name: ".toList ++ "invalid syntax".toList),
              (.error, "Python script: ".toList ++
                extract_substring "```python\n1/\n```".toList pythonFenceMarker fenceMarker),
              (.info, "Generated Python function: ".toList ++ "lol".toList)],
       .ok ⟨some "lol".toList,
         extract_substring "```python\n1/\n```".toList pythonFenceMarker fenceMarker⟩) :=
  ⟨rfl, rfl, claim_C1 c1_complete c1_parse [] [] _ _ rfl rfl⟩

/-- Oracle returning a bare (unfenced) response. -/
def c2_complete : Messages → Except (List Char) (List Char) :=
  fun _ => .ok "x = 1".toList

/-- Parse oracle yielding a module with no function definitions. -/
def c2_parse : List Char → ParseResult :=
  fun _ => .parsed [.other []]

/-- Counterexample to C2 as stated: on a response whose code contains zero
function definitions the extraction returns `None` without raising, so the
`except` branch never runs — `generate_python_code` raises `ValueError`
(aborting) and logs nothing, instead of logging the script body and
substituting a sentinel name. -/
theorem claim_C2_counterexample :
    extract_single_function_name
      (c2_parse (extract_substring "x = 1".toList pythonFenceMarker fenceMarker)) = .ok none ∧
    generate_python_code c2_complete c2_parse [] [] =
      ([], .error "The generated Python code does not contain exactly one function definition.".toList) := by
  constructor
  · simp [c2_parse, extract_single_function_name, collectNamesList, collectNames]
  · simp [generate_python_code, c2_complete, c2_parse, extract_single_function_name,
      collectNamesList, collectNames]

/-- C2 amended: when name extraction finds zero or multiple function
definitions it returns `None` (it does not raise), so `generate_python_code`
raises `ValueError` and aborts, with no log entry and no sentinel name; the
log-and-substitute path runs only when the extraction raises. -/
theorem claim_C2 (complete : Messages → Except (List Char) (List Char))
    (parse : List Char → ParseResult) (msgs : Messages) (st : LogState)
    (resp : List Char) (hc : complete msgs = .ok resp)
    (hp : extract_single_function_name
      (parse (extract_substring resp pythonFenceMarker fenceMarker)) = .ok none) :
    generate_python_code complete parse msgs st =
      (st, .error "The generated Python code does not contain exactly one function definition.".toList) := by
  simp [generate_python_code, hc, hp]

/-- Concrete instantiation of the amended C2 on `c2_complete`/`c2_parse`. -/
theorem claim_C2_witness :
    c2_complete [] = .ok "x = 1".toList ∧
    extract_single_function_name
      (c2_parse (extract_substring "x = 1".toList pythonFenceMarker fenceMarker)) = .ok none ∧
    generate_python_code c2_complete c2_parse [] [] =
      ([], .error "The generated Python code does not contain exactly one function definition.".toList) :=
  ⟨rfl, by simp [c2_parse, extract_single_function_name, collectNamesList, collectNames],
   claim_C2 c2_complete c2_parse [] [] _ rfl
     (by simp [c2_parse, extract_single_function_name, collectNamesList, collectNames])⟩

/-- C8: `generate_python_code` raises a `ValueError` whenever the name
extraction returns the absent (`None`) signal, and a returned
`PythonFunction` never carries the absent signal as its name. -/
theorem claim_C8 (complete : Messages → Except (List Char) (List Char))
    (parse : List Char → ParseResult) (msgs : Messages) (st : LogState) :
    (∀ resp, complete msgs = .ok resp →
      extract_single_function_name
        (parse (extract_substring resp pythonFenceMarker fenceMarker)) = .ok none →
      (generate_python_code complete parse msgs st).2 =
        .error "The generated Python code does not contain exactly one function definition.".toList) ∧
    (∀ st' f, generate_python_code complete parse msgs st = (st', .ok f) →
      f.name ≠ none) := by
  constructor
  · intro resp hc hp
    simp [generate_python_code, hc, hp]
  · intro st' f h
    rcases hcm : complete msgs with e | resp
    · simp only [generate_python_code, hcm] at h
      rw [Prod.ext_iff] at h
      exact absurd h.2 (by simp)
    · rcases hx : extract_single_function_name
          (parse (extract_substring resp pythonFenceMarker fenceMarker)) with e | fn
      · -- the extraction raised: the sentinel "lol" is returned
        simp only [generate_python_code, hcm, hx] at h
        rw [Prod.ext_iff] at h
        obtain ⟨-, h2⟩ := h
        injection h2 with h2
        rw [← h2]
        simp
      · rcases fn with - | n
        · -- the extraction returned None: ValueError, nothing is returned
          simp only [generate_python_code, hcm, hx] at h
          rw [Prod.ext_iff] at h
          exact absurd h.2 (by simp)
        · -- the extraction returned a name: that name is carried over
          simp only [generate_python_code, hcm, hx] at h
          rw [Prod.ext_iff] at h
          obtain ⟨-, h2⟩ := h
          injection h2 with h2
          rw [← h2]
          simp

/-- Concrete instantiation of C8's first clause on `c2_complete`/`c2_parse`:
the extraction comes back absent and the result is the `ValueError`. -/
theorem claim_C8_witness :
    c2_complete [] = .ok "x = 1".toList ∧
    extract_single_function_name
      (c2_parse (extract_substring "x = 1".toList pythonFenceMarker fenceMarker)) = .ok none ∧
    (generate_python_code c2_complete c2_parse [] []).2 =
      .error "The generated Python code does not contain exactly one function definition.".toList :=
  ⟨rfl, by simp [c2_parse, extract_single_function_name, collectNamesList, collectNames],
   (claim_C8 c2_complete c2_parse [] []).1 "x = 1".toList rfl
     (by simp [c2_parse, extract_single_function_name, collectNamesList, collectNames])⟩

/-- C7: if the function generation succeeds but the test generation fails,
`add_function` propagates the failure before the `append` on main.py line
90 runs, so the script's suite list is returned unchanged and no partial
suite exists. -/
theorem claim_C7 (complete : Messages → Except (List Char) (List Char))
    (parse : List Char → ParseResult) (goal pkg : List Char)
    (s : PythonFileScript) (st st1 st2 : LogState) (pf : PythonFunction)
    (e : List Char)
    (h1 : generate_python_function complete parse goal st = (st1, .ok pf))
    (h2 : generate_python_test complete parse pf pkg s.module_name st1 = (st2, .error e)) :
    script_add_function complete parse goal pkg s st = (st2, s, .error e) := by
  simp only [script_add_function, h1, h2]

/-- Parse oracle recognising exactly the well-formed generated script. -/
def c7_parse : List Char → ParseResult := fun scr =>
  if scr = "\ndef foo(): pass\n".toList then
    .parsed [.functionDef "foo".toList [.other []]]
  else
    .parsed [.other []]

/-- Completion oracle answering the two-message function prompt with a good
fenced block and the three-message test prompt with garbage. -/
def c7_complete : Messages → Except (List Char) (List Char) := fun msgs =>
  if msgs.length = 2 then .ok "```python\ndef foo(): pass\n```".toList
  else .ok "x".toList

/-- Concrete instantiation of C7: the first generation step succeeds, the
second aborts with `ValueError`, and `add_function` leaves the (empty)
suite list untouched. -/
theorem claim_C7_witness :
    generate_python_function c7_complete c7_parse "g".toList [] =
      ([(.info, "Generated Python function: ".toList ++ "foo".toList)],
        .ok ⟨some "foo".toList, "\ndef foo(): pass\n".toList⟩) ∧
    generate_python_test c7_complete c7_parse
        ⟨some "foo".toList, "\ndef foo(): pass\n".toList⟩ "p".toList
        (⟨[], "main".toList⟩ : PythonFileScript).module_name
        [(.info, "Generated Python function: ".toList ++ "foo".toList)] =
      ([(.info, "Generated Python function: ".toList ++ "foo".toList)],
        .error "The generated Python code does not contain exactly one function definition.".toList) ∧
    script_add_function c7_complete c7_parse "g".toList "p".toList
        ⟨[], "main".toList⟩ [] =
      ([(.info, "Generated Python function: ".toList ++ "foo".toList)],
        ⟨[], "main".toList⟩,
        .error "The generated Python code does not contain exactly one function definition.".toList) := by
  refine ⟨by decide, by decide, ?_⟩
  exact claim_C7 c7_complete c7_parse "g".toList "p".toList ⟨[], "main".toList⟩
    [] [(.info, "Generated Python function: ".toList ++ "foo".toList)]
    [(.info, "Generated Python function: ".toList ++ "foo".toList)]
    ⟨some "foo".toList, "\ndef foo(): pass\n".toList⟩
    "The generated Python code does not contain exactly one function definition.".toList
    (by decide) (by decide)

/-- C3: after `write_to_file`, the module file holds exactly the
concatenation, in insertion order and with no separators, of every suite's
function content, and the test file likewise holds the concatenated test
contents. -/
theorem claim_C3 (ws pkg : List Char) (s : PythonFileScript) (fs : FS) :
    write_to_file s ws pkg fs (script_filepath ws pkg s.module_name) =
      some ((s.functions.map fun function_set => function_set.function.content).flatten) ∧
    write_to_file s ws pkg fs (test_filepath ws s.module_name) =
      some ((s.functions.map fun function_set => function_set.test.content).flatten) :=
  write_to_file_read s ws pkg fs

/-- `script_add_function` only succeeds by appending exactly one new suite. -/
lemma script_add_function_ok (complete : Messages → Except (List Char) (List Char))
    (parse : List Char → ParseResult) (goal pkg : List Char)
    (s s' : PythonFileScript) (st st' : LogState)
    (h : script_add_function complete parse goal pkg s st = (st', s', .ok ())) :
    ∃ suite, s' = { s with functions := s.functions ++ [suite] } := by
  rcases h1 : generate_python_function complete parse goal st with ⟨st1, r1⟩
  cases r1 with
  | error e =>
    simp only [script_add_function, h1] at h
    rw [Prod.ext_iff, Prod.ext_iff] at h
    exact absurd h.2.2 (by simp)
  | ok pf =>
    rcases h2 : generate_python_test complete parse pf pkg s.module_name st1 with ⟨st2, r2⟩
    cases r2 with
    | error e =>
      simp only [script_add_function, h1, h2] at h
      rw [Prod.ext_iff, Prod.ext_iff] at h
      exact absurd h.2.2 (by simp)
    | ok pt =>
      simp only [script_add_function, h1, h2] at h
      rw [Prod.ext_iff, Prod.ext_iff] at h
      exact ⟨⟨pf, pt⟩, h.2.1.symm⟩

/-- C9: every script `PythonPackage.add_function` appends carries the fixed
module name `"main"` and exactly one suite; consequently all scripts of a
package serialize to the same two paths, and after `write_files` those
files hold only the last script's contents. -/
theorem claim_C9 :
    (∀ (complete : Messages → Except (List Char) (List Char))
        (parse : List Char → ParseResult) (goal pkg : List Char)
        (scripts : List PythonFileScript) (st st' : LogState)
        (scripts' : List PythonFileScript),
      package_add_function complete parse goal pkg scripts st = (st', scripts', .ok ()) →
      ∃ s, scripts' = scripts ++ [s] ∧ s.module_name = "main".toList ∧
        s.functions.length = 1) ∧
    (∀ (ws pkg : List Char) (fs : FS) (ss : List PythonFileScript)
        (s : PythonFileScript),
      (∀ t ∈ ss ++ [s], t.module_name = "main".toList) →
      write_files ws pkg (ss ++ [s]) fs (script_filepath ws pkg "main".toList) =
        some ((s.functions.map fun function_set => function_set.function.content).flatten) ∧
      write_files ws pkg (ss ++ [s]) fs (test_filepath ws "main".toList) =
        some ((s.functions.map fun function_set => function_set.test.content).flatten)) := by
  constructor
  · intro complete parse goal pkg scripts st st' scripts' h
    rcases hs : script_add_function complete parse goal pkg ⟨[], "main".toList⟩ st
      with ⟨st0, s0, r0⟩
    cases r0 with
    | error e =>
      simp only [package_add_function, hs] at h
      rw [Prod.ext_iff, Prod.ext_iff] at h
      exact absurd h.2.2 (by simp)
    | ok u =>
      cases u
      obtain ⟨suite, hsh⟩ := script_add_function_ok complete parse goal pkg _ _ st st0 hs
      simp only [package_add_function, hs] at h
      rw [Prod.ext_iff, Prod.ext_iff] at h
      refine ⟨s0, h.2.1.symm, ?_, ?_⟩
      · rw [hsh]
      · rw [hsh]
        simp
  · intro ws pkg fs ss s hmods
    induction ss generalizing fs with
    | nil =>
      have hm : s.module_name = "main".toList := hmods s (by simp)
      have hr := write_to_file_read s ws pkg fs
      rw [hm] at hr
      simpa [write_files] using hr
    | cons t ts ih =>
      have hmods' : ∀ u ∈ ts ++ [s], u.module_name = "main".toList := by
        intro u hu
        exact hmods u (by simp at hu ⊢; tauto)
      have := ih (write_to_file t ws pkg fs) hmods'
      simpa [write_files] using this

/-- Completion oracle that always answers with the good fenced block. -/
def c9_complete : Messages → Except (List Char) (List Char) :=
  fun _ => .ok "```python\ndef foo(): pass\n```".toList

/-- The suite generated from `c9_complete`/`c7_parse`. -/
def c9_suite : PythonFunctionSuite :=
  ⟨⟨some "foo".toList, "\ndef foo(): pass\n".toList⟩,
   ⟨some "foo".toList, "\ndef foo(): pass\n".toList⟩⟩

/-- Concrete instantiation of C9's first clause: a successful
`PythonPackage.add_function` run appends one `"main"`-named script holding
one suite. -/
theorem claim_C9_witness :
    package_add_function c9_complete c7_parse "g".toList "p".toList [] [] =
      ([(.info, "Generated Python function: ".toList ++ "foo".toList),
        (.info, "Generated Python function: ".toList ++ "foo".toList)],
       [⟨[c9_suite], "main".toList⟩], .ok ()) ∧
    (∃ s, ([⟨[c9_suite], "main".toList⟩] : List PythonFileScript) = [] ++ [s] ∧
      s.module_name = "main".toList ∧ s.functions.length = 1) :=
  ⟨by decide,
   claim_C9.1 c9_complete c7_parse "g".toList "p".toList [] []
     [(.info, "Generated Python function: ".toList ++ "foo".toList),
      (.info, "Generated Python function: ".toList ++ "foo".toList)]
     [⟨[c9_suite], "main".toList⟩] (by decide)⟩

/-- A root whose workspace directory holds one stale file and whose backup
root does not exist yet. -/
def c4_root : Root := fun n =>
  if n = "workspace".toList then
    some (.dir [("old.txt".toList, .file "x".toList)])
  else
    none

/-- Concrete instantiation of C4 on the default configuration
(`workspace`/`backup`/`testpackage`) with one stale entry. -/
theorem claim_C4_witness :
    c4_root "workspace".toList =
      some (.dir [("old.txt".toList, .file "x".toList)]) ∧
    ([("old.txt".toList, Node.file "x".toList)] : Entries) ≠ [] ∧
    (∃ r', init_workspace "workspace".toList "backup".toList "testpackage".toList
        "20240101-000000".toList c4_root = .ok r' ∧
      r' "workspace".toList = some (.dir
        [("testpackage".toList, .dir [("__init__.py".toList, .file [])]),
         ("tests".toList, .dir [("__init__.py".toList, .file [])])]) ∧
      ∃ bes', r' "backup".toList = some (.dir bes') ∧
        lookupE bes' "20240101-000000".toList =
          some (.dir [("old.txt".toList, .file "x".toList)])) :=
  ⟨by simp [c4_root], List.cons_ne_nil _ _,
   claim_C4 "workspace".toList "backup".toList "testpackage".toList
     "20240101-000000".toList c4_root [("old.txt".toList, .file "x".toList)]
     (by simp [c4_root]) (List.cons_ne_nil _ _) (by simp) (by decide) (by decide)
     (Or.inl (by simp [c4_root]))⟩

end Aimaker
